import Mathlib

/-!
Verification of the cross-ledger synchronization engine of the
akahu_to_budget repository.

The development shallowly embeds the engine code (modules/sync_handler.py and
modules/transaction_handler.py) into Lean:

* money amounts read from the feed are modelled as exact rationals;
  the Python conversions int(), round() and Decimal.quantize are modelled as
  exact functions on rationals;
* timestamps are modelled as seconds since an epoch (malformed or missing
  date strings become none), calendar days as day indices;
* the HTTP layer, the destination-B session library (the actual package) and
  the persistence collaborator (account_fetcher, account_mapper, config)
  are not part of the repository sources; they are modelled from the spec as
  oracles or pure state transforms, each marked in its doc comment;
* the mapping store persisted by the persistence collaborator is a list of
  (akahu account id, mapping entry) pairs; raised Python exceptions become
  explicit error values.
-/

/-- Python int() applied to an exact rational value: truncation toward zero. -/
def pyTrunc (q : ℚ) : ℤ :=
  if 0 ≤ q then ⌊q⌋ else ⌈q⌉

/-- Python round() of an exact rational value to an integer:
round-half-to-even (banker rounding). -/
def pyRoundHalfEven (q : ℚ) : ℤ :=
  let f : ℤ := ⌊q⌋
  let r : ℚ := q - (f : ℚ)
  if r < 1/2 then f
  else if 1/2 < r then f + 1
  else if f % 2 = 0 then f else f + 1

/-- Decimal.quantize to four fractional digits with the default
ROUND_HALF_EVEN rounding, over exact rationals: the transformation applied to
amounts by load_transactions_into_actual (transaction_handler.py lines
217-218). -/
def quantize4 (q : ℚ) : ℚ :=
  (pyRoundHalfEven (q * 10000) : ℚ) / 10000

/-- Amount conversion applied per transaction by clean_txn_for_ynab
(transaction_handler.py lines 515-517): the Python expression
str(int(x * 1000)) over the amount column, modelled over exact rationals as
truncation toward zero of dollars times 1000. -/
def clean_txn_amount_milliunits (dollars : ℚ) : ℤ :=
  pyTrunc (dollars * 1000)

/-- A source (Akahu) transaction as delivered by the feed. The date string is
modelled as a UTC timestamp in seconds; none stands for a missing or
malformed date string. The merchant field is an optional object with an
optional name. -/
structure SrcTxn where
  id : String
  date : Option Nat
  description : String
  amount : ℚ
  merchantName : Option (Option String)
deriving Repr, DecidableEq

/-- convert_to_nzt (transaction_handler.py lines 491-505): add thirteen hours
to the UTC timestamp and truncate to the calendar day; a missing or malformed
input date yields none instead of raising. Days are modelled as day indices,
so the formatting of the day as a string is elided. -/
def convert_to_nzt : Option Nat → Option Nat
  | none => none
  | some t => some ((t + 13 * 3600) / 86400)

/-- get_payee_name (transaction_handler.py lines 473-488): prefer the
merchant display name when the merchant object is present and carries a
name, otherwise fall back to the free-text description. -/
def get_payee_name (txn : SrcTxn) : String :=
  match txn.merchantName with
  | some (some n) => n
  | _ => txn.description

/-- One page of the paginated Akahu feed. The cursor field of the response is
modelled structurally: none is a response without a cursor field,
some none is a cursor object without a next key, some (some none) is a null
next value, and some (some (some tok)) is a real continuation token. -/
structure Page where
  items : List SrcTxn
  cursor : Option (Option (Option String))
deriving Repr, DecidableEq

/-- The has_more_pages test of get_all_akahu (transaction_handler.py lines
157-170): the loop continues exactly when the page carried at least one
record, a cursor field, a next key, and the next value is not null (a null
next value makes next_cursor None, ending the while loop). -/
def page_has_more (p : Page) : Bool :=
  decide (0 < p.items.length) &&
    match p.cursor with
    | some (some (some _)) => true
    | _ => false

/-- get_all_akahu (transaction_handler.py lines 104-174), pagination core:
the server is modelled as the list of pages it would return to the
successive requests; the reader concatenates the items of each fetched page
and stops after the first page that fails the has_more_pages test. The
query-window computation and the HTTP transport are outside this model. -/
def get_all_akahu : List Page → List SrcTxn
  | [] => []
  | p :: rest => p.items ++ (if page_has_more p then get_all_akahu rest else [])

/-- Number of page requests issued by get_all_akahu against the same
modelled feed. -/
def get_all_akahu_requests : List Page → Nat
  | [] => 0
  | p :: rest => 1 + (if page_has_more p then get_all_akahu_requests rest else 0)

/-- One AccountMapping entry of the persisted configuration. String-valued
fields absent from the underlying JSON object are none; the do-not-map flags
follow Python truthiness of the stored value. -/
structure Mapping where
  account_type : Option String
  akahu_name : Option String
  actual_do_not_map : Bool
  actual_budget_id : Option String
  actual_account_id : Option String
  actual_synced_datetime : Option String
  ynab_do_not_map : Bool
  ynab_budget_id : Option String
  ynab_account_id : Option String
  ynab_synced_datetime : Option String
  akahu_balance : Option ℚ
deriving Repr, DecidableEq

/-- Python truthiness of an optional string field: a missing value and the
empty string are falsy. -/
def truthy : Option String → Bool
  | none => false
  | some s => !(s == "")

/-- The account type with the default applied, as read everywhere in
sync_handler.py by mapping_entry.get with default value On Budget. -/
def account_type_of (m : Mapping) : String :=
  m.account_type.getD "On Budget"

/-- get_account_priority (sync_handler.py lines 26-39): 0 for On Budget
accounts, 1 for Tracking accounts, and 1 (with a warning) for any other
account-type string. -/
def get_account_priority (entry : String × Mapping) : Nat :=
  let t := account_type_of entry.2
  if t = "On Budget" then 0
  else if t = "Tracking" then 1
  else 1

/-- Stable insertion used to model the Python builtin sorted, which is a
stable sort: an element is placed before the first element whose key is not
smaller, keeping elements with equal keys in their original order. -/
def insert_by_priority (x : String × Mapping) :
    List (String × Mapping) → List (String × Mapping)
  | [] => [x]
  | y :: ys =>
    if get_account_priority x ≤ get_account_priority y then x :: y :: ys
    else y :: insert_by_priority x ys

/-- sorted(mapping_list.items(), key=get_account_priority) as called by
sync_to_ynab (line 86) and sync_to_ab (line 205): the Python builtin sorted
is a stable sort, modelled here as a stable insertion sort. -/
def sorted_by_priority : List (String × Mapping) → List (String × Mapping)
  | [] => []
  | x :: xs => insert_by_priority x (sorted_by_priority xs)

/-- The persisted mapping store owned by the persistence collaborator. -/
def Store := List (String × Mapping)

/-- Error values standing for the Python exceptions raised by the engine. -/
inductive SyncError where
  | feedUnavailable
  | loadFailed
  | trackingFailed
  | commitFailed
  | destinationRejected
  | balanceError
  | bareRaise
deriving Repr, DecidableEq

/-- Externally visible network operations performed by a sync pass for one
account, used to state the do-not-sync isolation property. -/
inductive Effect where
  | sourceRead (akahuId : String)
  | destRead (akahuId : String)
  | destWrite (akahuId : String)
deriving Repr, DecidableEq

/-- The account an effect touches. -/
def Effect.account : Effect → String
  | sourceRead a => a
  | destRead a => a
  | destWrite a => a

/-- update_mapping_timestamps (sync_handler.py lines 42-71). Modelled from
the spec: load_existing_mapping and save_mapping belong to the persistence
collaborator (modules/account_mapper, not among the engine sources), so the
load-mutate-save sequence is modelled as one pure transform of the persisted
store. Every account id listed in a successful-sync set has its timestamp
for that destination set to the current time, unless the corresponding
do-not-map flag is set; all other entries are untouched. -/
def update_mapping_timestamps (store : Store)
    (successful_ab_syncs : List String) (successful_ynab_syncs : List String)
    (current_time : String) : Store :=
  store.map fun e =>
    let m1 :=
      if successful_ab_syncs.contains e.1 && !e.2.actual_do_not_map then
        { e.2 with actual_synced_datetime := some current_time }
      else e.2
    let m2 :=
      if successful_ynab_syncs.contains e.1 && !m1.ynab_do_not_map then
        { m1 with ynab_synced_datetime := some current_time }
      else m1
    (e.1, m2)

/-- A transaction record stored in the destination-B (Actual Budget) ledger.
Amounts are in dollars as exact rationals; dates are day indices. The
importedId field carries the stable import/idempotency key. -/
structure ActualTxn where
  date : Nat
  account : String
  payee : String
  notes : String
  amount : ℚ
  importedId : String
  cleared : Bool
deriving Repr, DecidableEq

/-- Modelled from the spec: one rule of the destination-owned rule set (spec
4.3 step 4 and interface getRuleset of spec 6, provided by the external
actual library, not among the engine sources): a predicate over the record
together with a mutation of its presentation fields (payee, notes, amount).
The stable import id and the account are not rule-editable, matching the
glossary of the spec, which defines the import key as a stable identifier
that destinations use to reject re-submission. -/
structure Rule where
  applies : ActualTxn → Bool
  set_payee : Option String
  set_notes : Option String
  set_amount : Option ℚ

/-- Application of a single rule to a record. -/
def run_rule (r : Rule) (t : ActualTxn) : ActualTxn :=
  if r.applies t then
    { t with
      payee := r.set_payee.getD t.payee
      notes := r.set_notes.getD t.notes
      amount := r.set_amount.getD t.amount }
  else t

/-- Application of an ordered rule list to a record (ruleset.run of the
external actual library, modelled from the spec). -/
def run_ruleset (rs : List Rule) (t : ActualTxn) : ActualTxn :=
  rs.foldl (fun acc r => run_rule r acc) t

/-- Modelled from the spec: reconcile_transaction of the external actual
library with update_existing=False (interface matchOrCreateTransaction of
spec 6, semantics of spec 4.3 steps 1-3): the incoming transaction is
matched against the records already durably stored plus the in-batch pool,
keyed on the destination account and the stable import id; a match is
returned unchanged with changed() false, otherwise a freshly built record
carrying the import id is returned with changed() true. The returned flag is
the changed() test of the source (transaction_handler.py lines 293-307). -/
def reconcile_transaction (ledger : List ActualTxn)
    (already_matched : List ActualTxn) (date : Nat) (account : String)
    (payee : String) (notes : String) (amount : ℚ) (imported_id : String)
    (cleared : Bool) : ActualTxn × Bool :=
  match (ledger ++ already_matched).find?
      (fun r => r.account == account && r.importedId == imported_id) with
  | some r => (r, false)
  | none => (⟨date, account, payee, notes, amount, imported_id, cleared⟩, true)

/-- The per-transaction loop of load_transactions_into_actual
(transaction_handler.py lines 213-366): each source transaction is
transcoded (NZT date, amount quantized to four digits, payee and notes from
the description, import id from the source id) and reconciled against the
ledger; a duplicate is skipped without mutation and without being counted; a
new record has the rule set run on it in the session (modelled by appending
the post-rule record) and is appended to the in-batch imported list. A
transaction whose date does not parse raises, aborting the whole load. -/
def load_loop (ruleset : Option (List Rule)) (actual_account_id : String) :
    List SrcTxn → List ActualTxn → List ActualTxn →
    Except SyncError (List ActualTxn × List ActualTxn)
  | [], ledger, imported => .ok (ledger, imported)
  | txn :: rest, ledger, imported =>
    let payee_name := txn.description
    let notes := txn.description
    let amount := quantize4 txn.amount
    let imported_id := txn.id
    match convert_to_nzt txn.date with
    | none => .error .loadFailed
    | some parsed_date =>
      match reconcile_transaction ledger imported parsed_date
          actual_account_id payee_name notes amount imported_id true with
      | (_, false) => load_loop ruleset actual_account_id rest ledger imported
      | (t, true) =>
        let t2 := match ruleset with
          | none => t
          | some rs => run_ruleset rs t
        load_loop ruleset actual_account_id rest (ledger ++ [t2])
          (imported ++ [t2])

/-- load_transactions_into_actual (transaction_handler.py lines 177-380):
an empty input returns early with a bare return (modelled as count none);
otherwise the per-transaction loop runs and one commit is issued for the
whole batch at the end; a commit failure raises, making the count
len(imported_transactions) unavailable. The commit outcome of the external
session is an input oracle. -/
def load_transactions_into_actual (ruleset : Option (List Rule))
    (actual_account_id : String) (commitOutcome : Except SyncError Unit)
    (transactions : List SrcTxn) (ledger : List ActualTxn) :
    Except SyncError (List ActualTxn × Option Nat) :=
  if transactions.isEmpty then .ok (ledger, none)
  else
    match load_loop ruleset actual_account_id transactions ledger [] with
    | .error e => .error e
    | .ok (ledger2, imported) =>
      match commitOutcome with
      | .error _ => .error .commitFailed
      | .ok _ => .ok (ledger2, some imported.length)

/-- handle_tracking_account_actual (transaction_handler.py lines 383-451):
the source balance in dollars is truncated to cents and compared with the
destination balance in cents (get_actual_balance of the external
account_fetcher module, supplied here as an argument); on a difference a
single adjustment transaction dated today with payee Balance Adjustment is
created whose dollar amount is the cent difference divided by 100, the
session is committed, and 1 is returned; on equality nothing is created and
0 is returned. The import id built from the current wall-clock time and the
dollar-formatted memo text are supplied as opaque strings. -/
def handle_tracking_account_actual (akahu_balance_dollars : ℚ)
    (actual_balance_cents : ℤ) (actual_account_id : String) (today : Nat)
    (adjustment_id : String) (memo : String)
    (commitOutcome : Except SyncError Unit) (ledger : List ActualTxn) :
    Except SyncError (List ActualTxn × Nat) :=
  let akahu_balance_cents := pyTrunc (akahu_balance_dollars * 100)
  if akahu_balance_cents ≠ actual_balance_cents then
    let adjustment_dollars : ℚ :=
      ((akahu_balance_cents - actual_balance_cents : ℤ) : ℚ) / 100
    let adj : ActualTxn :=
      { date := today
        account := actual_account_id
        payee := "Balance Adjustment"
        notes := memo
        amount := adjustment_dollars
        importedId := adjustment_id
        cleared := true }
    match commitOutcome with
    | .error _ => .error .commitFailed
    | .ok _ => .ok (ledger ++ [adj], 1)
  else .ok (ledger, 0)

/-- A destination-A (YNAB) balance-adjustment transaction as built by
create_adjustment_txn_ynab; the amount is in milliunits. -/
structure YnabAdjustment where
  account_id : String
  date : Nat
  amount : ℤ
  payee_name : String
  memo : String
  flag_color : String
  cleared : String
  approved : Bool
deriving Repr, DecidableEq

/-- create_adjustment_txn_ynab (transaction_handler.py lines 607-647): with
both balances in milliunits, a zero difference creates nothing; otherwise a
single transaction dated today is posted whose amount is the signed
difference akahu minus ynab, with payee name Balance Adjustment. The
dollar-formatted memo text is supplied as an opaque string. -/
def create_adjustment_txn_ynab (akahu_balance : ℤ) (ynab_balance : ℤ)
    (ynab_account_id : String) (today : Nat) (memo : String) :
    Option YnabAdjustment :=
  let balance_difference := akahu_balance - ynab_balance
  if balance_difference = 0 then none
  else
    some
      { account_id := ynab_account_id
        date := today
        amount := balance_difference
        payee_name := "Balance Adjustment"
        memo := memo
        flag_color := "red"
        cleared := "cleared"
        approved := true }

/-- Oracles for one sync_to_ab pass. Modelled from the spec where the called
code is outside the engine sources: akahuBalance stands for
get_akahu_balance of modules/account_fetcher (none models a null balance);
fetchTxns for the outcome of get_all_akahu over the network;
trackingOutcome for the outcome of handle_tracking_account_actual including
its session interactions; loadOutcome for the outcome of
load_transactions_into_actual on the fetched frame; commitOutcome for the
commit and remote-sync round trip of sync_to_ab lines 267-304. Each oracle
is a fixed function of the account id, so re-running a step observes the
same world. -/
structure ABEnv where
  akahuBalance : String → Option ℚ
  fetchTxns : String → Except SyncError (List SrcTxn)
  trackingOutcome : String → Except SyncError Nat
  loadOutcome : String → Except SyncError Nat
  commitOutcome : Except SyncError Unit

/-- In-memory accumulator of one pass: the running uploaded count, the set of
accounts that completed successfully (as an insertion-ordered list), and the
trace of network operations performed so far. -/
structure PassState where
  uploaded : Nat
  successful : List String
  effects : List Effect
deriving Repr, DecidableEq

/-- One iteration of the account loop of sync_to_ab (sync_handler.py lines
207-265): skip silently when actual_do_not_map is truthy; skip with a
warning when either Actual id is missing or empty; for a Tracking account
fetch the source balance (a null balance logs an error and continues) and
run the balance-parity controller, counting its result and marking the
account successful; for an On Budget account fetch the feed (an empty frame
leaves the account unmarked) and load the frame, adding the returned count
and marking the account successful; any other account type logs an error
and hits the bare raise. The first component is the raised exception, if
any; network operations performed before a raise stay in the trace. -/
def step_ab (env : ABEnv) (st : PassState) (entry : String × Mapping) :
    Option SyncError × PassState :=
  let akahu_account_id := entry.1
  let m := entry.2
  let account_type := account_type_of m
  if m.actual_do_not_map then (none, st)
  else if !(truthy m.actual_budget_id && truthy m.actual_account_id) then
    (none, st)
  else if account_type = "Tracking" then
    match env.akahuBalance akahu_account_id with
    | none =>
      (none, { st with
        effects := st.effects ++ [.sourceRead akahu_account_id] })
    | some _ =>
      match env.trackingOutcome akahu_account_id with
      | .error e =>
        (some e, { st with
          effects := st.effects ++
            [.sourceRead akahu_account_id, .destRead akahu_account_id,
              .destWrite akahu_account_id] })
      | .ok n =>
        (none,
          { uploaded := st.uploaded + n
            successful := st.successful ++ [akahu_account_id]
            effects := st.effects ++
              [.sourceRead akahu_account_id, .destRead akahu_account_id,
                .destWrite akahu_account_id] })
  else if account_type = "On Budget" then
    match env.fetchTxns akahu_account_id with
    | .error e =>
      (some e, { st with
        effects := st.effects ++ [.sourceRead akahu_account_id] })
    | .ok txns =>
      if txns.isEmpty then
        (none, { st with
          effects := st.effects ++ [.sourceRead akahu_account_id] })
      else
        match env.loadOutcome akahu_account_id with
        | .error e =>
          (some e, { st with
            effects := st.effects ++
              [.sourceRead akahu_account_id, .destWrite akahu_account_id] })
        | .ok n =>
          (none,
            { uploaded := st.uploaded + n
              successful := st.successful ++ [akahu_account_id]
              effects := st.effects ++
                [.sourceRead akahu_account_id,
                  .destWrite akahu_account_id] })
  else (some .bareRaise, st)

/-- Oracles for one sync_to_ynab pass, analogous to ABEnv:
ynabBalanceMilli stands for get_ynab_balance of modules/account_fetcher in
milliunits, adjustOutcome for the outcome of create_adjustment_txn_ynab
over the network, loadOutcome for load_transactions_into_ynab. -/
structure YnabEnv where
  akahuBalance : String → Option ℚ
  ynabBalanceMilli : String → ℤ
  fetchTxns : String → Except SyncError (List SrcTxn)
  adjustOutcome : String → Except SyncError Unit
  loadOutcome : String → Except SyncError Nat

/-- One iteration of the account loop of sync_to_ynab (sync_handler.py lines
88-173): skip silently when ynab_do_not_map is truthy; skip with a warning
when either YNAB id is missing or empty; for a Tracking account fetch the
source balance twice and the destination balance (a null source balance
makes log_balance_comparison raise on Decimal conversion), compare in
milliunits with the source side truncated by int(), post an adjustment when
different, and mark the account successful whether or not an adjustment was
needed; for an On Budget account fetch the feed (an empty frame leaves the
account unmarked) and load the frame; any other account type logs an error
and the loop continues. -/
def step_ynab (env : YnabEnv) (st : PassState) (entry : String × Mapping) :
    Option SyncError × PassState :=
  let akahu_account_id := entry.1
  let m := entry.2
  let account_type := account_type_of m
  if m.ynab_do_not_map then (none, st)
  else if !(truthy m.ynab_budget_id && truthy m.ynab_account_id) then
    (none, st)
  else if account_type = "Tracking" then
    match env.akahuBalance akahu_account_id with
    | none =>
      (some .balanceError, { st with
        effects := st.effects ++
          [.sourceRead akahu_account_id, .destRead akahu_account_id,
            .sourceRead akahu_account_id] })
    | some bal =>
      let ynab_balance_milliunits := env.ynabBalanceMilli akahu_account_id
      let akahu_balance_milliunits := pyTrunc (bal * 1000)
      let effs : List Effect :=
        [.sourceRead akahu_account_id, .destRead akahu_account_id,
          .sourceRead akahu_account_id]
      if ynab_balance_milliunits ≠ akahu_balance_milliunits then
        match env.adjustOutcome akahu_account_id with
        | .error e =>
          (some e, { st with
            effects := st.effects ++ effs ++
              [.destWrite akahu_account_id] })
        | .ok _ =>
          (none,
            { uploaded := st.uploaded + 1
              successful := st.successful ++ [akahu_account_id]
              effects := st.effects ++ effs ++
                [.destWrite akahu_account_id] })
      else
        (none, { st with
          successful := st.successful ++ [akahu_account_id]
          effects := st.effects ++ effs })
  else if account_type = "On Budget" then
    match env.fetchTxns akahu_account_id with
    | .error e =>
      (some e, { st with
        effects := st.effects ++ [.sourceRead akahu_account_id] })
    | .ok txns =>
      if txns.isEmpty then
        (none, { st with
          effects := st.effects ++ [.sourceRead akahu_account_id] })
      else
        match env.loadOutcome akahu_account_id with
        | .error e =>
          (some e, { st with
            effects := st.effects ++
              [.sourceRead akahu_account_id, .destWrite akahu_account_id] })
        | .ok n =>
          (none,
            { uploaded := st.uploaded + n
              successful := st.successful ++ [akahu_account_id]
              effects := st.effects ++
                [.sourceRead akahu_account_id,
                  .destWrite akahu_account_id] })
  else (none, st)

/-- The sequential account loop shared by both passes: run the step on each
entry in order and stop at the first raised exception. -/
def run_accounts
    (step : PassState → (String × Mapping) → Option SyncError × PassState) :
    List (String × Mapping) → PassState → Option SyncError × PassState
  | [], st => (none, st)
  | e :: rest, st =>
    match step st e with
    | (some err, st2) => (some err, st2)
    | (none, st2) => run_accounts step rest st2

/-- Observable outcome of a whole pass: the raised exception if the pass
aborted, the in-memory accumulators at that point, and the persisted store
after the pass. -/
structure SyncResult where
  err : Option SyncError
  uploaded : Nat
  successful : List String
  effects : List Effect
  store : Store

/-- sync_to_ab (sync_handler.py lines 180-308): sort the mapping entries with
the stable priority sort, run the account loop, and, when it finished
without raising and at least one transaction was uploaded, issue the single
commit and remote-sync round trip; a failure there raises. Only then, and
only when the successful set is non-empty, the stored timestamps are
updated in one batch. A raise anywhere leaves the persisted store
untouched. The FORCE_REFRESH preamble only refreshes the session and is not
modelled. -/
def sync_to_ab (env : ABEnv) (mapping_list : List (String × Mapping))
    (store : Store) (current_time : String) : SyncResult :=
  let sorted_accounts := sorted_by_priority mapping_list
  match run_accounts (step_ab env) sorted_accounts ⟨0, [], []⟩ with
  | (some e, st) => ⟨some e, st.uploaded, st.successful, st.effects, store⟩
  | (none, st) =>
    let finish : SyncResult :=
      if st.successful.isEmpty then
        ⟨none, st.uploaded, st.successful, st.effects, store⟩
      else
        ⟨none, st.uploaded, st.successful, st.effects,
          update_mapping_timestamps store st.successful [] current_time⟩
    if st.uploaded > 0 then
      match env.commitOutcome with
      | .error e =>
        ⟨some e, st.uploaded, st.successful, st.effects, store⟩
      | .ok _ => finish
    else finish

/-- sync_to_ynab (sync_handler.py lines 74-177): sort the mapping entries
with the stable priority sort, run the account loop, and, when it finished
without raising and the successful set is non-empty, update the stored
timestamps in one batch; there is no commit stage on this destination. A
raise anywhere leaves the persisted store untouched. -/
def sync_to_ynab (env : YnabEnv) (mapping_list : List (String × Mapping))
    (store : Store) (current_time : String) : SyncResult :=
  let sorted_accounts := sorted_by_priority mapping_list
  match run_accounts (step_ynab env) sorted_accounts ⟨0, [], []⟩ with
  | (some e, st) => ⟨some e, st.uploaded, st.successful, st.effects, store⟩
  | (none, st) =>
    if st.successful.isEmpty then
      ⟨none, st.uploaded, st.successful, st.effects, store⟩
    else
      ⟨none, st.uploaded, st.successful, st.effects,
        update_mapping_timestamps store [] st.successful current_time⟩

/-- Concrete source transaction used to exercise the definitions. -/
def txA : SrcTxn :=
  { id := "akahu_tx_a", date := some 0, description := "Cafe",
    amount := 5/2, merchantName := none }

/-- Second concrete source transaction. -/
def txB : SrcTxn :=
  { id := "akahu_tx_b", date := some 86400, description := "Grocer",
    amount := -3/4, merchantName := some (some "Grocer Ltd") }

/-- A two-page feed whose first page continues and whose last page carries no
cursor field. -/
def pagesW : List Page :=
  [{ items := [txA], cursor := some (some (some "cursor1")) },
   { items := [txB], cursor := none }]

/-- The ledger produced by loading txA into an empty destination-B ledger. -/
def ledgerW : List ActualTxn :=
  [{ date := 0, account := "acct-b", payee := "Cafe", notes := "Cafe",
     amount := quantize4 (5/2), importedId := "akahu_tx_a",
     cleared := true }]

/-- An On Budget mapping entry with both destinations fully configured. -/
def mapOB : Mapping :=
  { account_type := some "On Budget", akahu_name := some "Everyday",
    actual_do_not_map := false, actual_budget_id := some "b1",
    actual_account_id := some "a1", actual_synced_datetime := none,
    ynab_do_not_map := false, ynab_budget_id := some "yb1",
    ynab_account_id := some "ya1", ynab_synced_datetime := none,
    akahu_balance := none }

/-- A Tracking mapping entry. -/
def mapTrack : Mapping :=
  { mapOB with account_type := some "Tracking" }

/-- A mapping entry flagged do-not-sync for both destinations. -/
def mapFlagged : Mapping :=
  { mapOB with actual_do_not_map := true, ynab_do_not_map := true }

/-- A mapping entry missing the destination identifiers of both
destinations. -/
def mapNoIds : Mapping :=
  { mapOB with
    actual_budget_id := none
    actual_account_id := none
    ynab_budget_id := none
    ynab_account_id := none }

/-- A mapping entry with an unrecognized account-type string. -/
def mapUnknown : Mapping :=
  { mapOB with account_type := some "Mystery" }

/-- An oracle set under which every operation succeeds. -/
def envOkAB : ABEnv :=
  { akahuBalance := fun _ => some 10, fetchTxns := fun _ => .ok [txA],
    trackingOutcome := fun _ => .ok 1, loadOutcome := fun _ => .ok 1,
    commitOutcome := .ok () }

/-- An oracle set under which every feed fetch raises. -/
def envFailAB : ABEnv :=
  { envOkAB with fetchTxns := fun _ => .error .feedUnavailable }

/-- An oracle set under which every feed fetch returns zero transactions. -/
def envEmptyAB : ABEnv :=
  { envOkAB with fetchTxns := fun _ => .ok [] }

/-- A YNAB-side oracle set under which every operation succeeds. -/
def envOkY : YnabEnv :=
  { akahuBalance := fun _ => some 10, ynabBalanceMilli := fun _ => 10000,
    fetchTxns := fun _ => .ok [txA], adjustOutcome := fun _ => .ok (),
    loadOutcome := fun _ => .ok 1 }

/-- A YNAB-side oracle set under which every feed fetch returns zero
transactions. -/
def envEmptyY : YnabEnv :=
  { envOkY with fetchTxns := fun _ => .ok [] }

/-- A small persisted store. -/
def storeW : Store :=
  [("acc1", mapOB), ("accF", mapFlagged)]

theorem pyTrunc_intCast (k : ℤ) : pyTrunc (k : ℚ) = k := by
  simp [pyTrunc]

theorem pyRoundHalfEven_intCast (k : ℤ) : pyRoundHalfEven (k : ℚ) = k := by
  norm_num [pyRoundHalfEven]

/-- C4, counterexample: at a source amount of 1.0009 dollars the code
(int truncation toward zero) produces 1000 destination-A milliunits while
the round of the claim produces 1001, so the transcoding is not
round(dollars times 1000). -/
theorem unit_conversion_round_counterexample :
    clean_txn_amount_milliunits (10009/10000) ≠
      pyRoundHalfEven ((10009/10000 : ℚ) * 1000) ∧
    clean_txn_amount_milliunits (10009/10000) = 1000 ∧
    pyRoundHalfEven ((10009/10000 : ℚ) * 1000) = 1001 := by
  refine ⟨?_, by norm_num [clean_txn_amount_milliunits, pyTrunc],
    by norm_num [pyRoundHalfEven]⟩
  norm_num [clean_txn_amount_milliunits, pyTrunc, pyRoundHalfEven]

/-- C4, amended: for every source transaction amount in dollars, the
destination-A transcoding produces int(dollars times 1000) truncated toward
zero, which agrees with round whenever dollars times 1000 is an exact
integer; in particular an amount of 12.345 dollars yields 12345
destination-A milliunits, and the destination-B transcoding quantizes the
amount to four fractional digits, leaving 12.345 unchanged. -/
theorem unit_conversion_truncation (d : ℚ) :
    clean_txn_amount_milliunits d = pyTrunc (d * 1000) ∧
    ((∃ k : ℤ, d * 1000 = (k : ℚ)) →
      clean_txn_amount_milliunits d = pyRoundHalfEven (d * 1000)) ∧
    clean_txn_amount_milliunits (12345/1000) = 12345 ∧
    quantize4 (12345/1000) = 12345/1000 := by
  refine ⟨rfl, ?_, by norm_num [clean_txn_amount_milliunits, pyTrunc],
    by norm_num [quantize4, pyRoundHalfEven]⟩
  rintro ⟨k, hk⟩
  simp [clean_txn_amount_milliunits, hk, pyTrunc_intCast,
    pyRoundHalfEven_intCast]

/-- Witness for the amended C4 theorem at the concrete amount 12.345
dollars, whose milliunit value is the exact integer 12345. -/
theorem unit_conversion_truncation_witness :
    clean_txn_amount_milliunits (2469/200) =
      pyRoundHalfEven ((2469/200 : ℚ) * 1000) :=
  (unit_conversion_truncation (2469/200)).2.1 ⟨12345, by norm_num⟩

theorem get_all_akahu_requests_le (ps : List Page) :
    get_all_akahu_requests ps ≤ ps.length := by
  induction ps with
  | nil => simp [get_all_akahu_requests]
  | cons p rest ih =>
    simp only [get_all_akahu_requests, List.length_cons]
    split
    · omega
    · omega

theorem get_all_akahu_complete (pages : List Page) :
    (∀ p ∈ pages.dropLast, page_has_more p = true) →
    ∀ hne : pages ≠ [], page_has_more (pages.getLast hne) = false →
    get_all_akahu_requests pages = pages.length ∧
      get_all_akahu pages = (pages.map Page.items).flatten := by
  induction pages with
  | nil => exact fun _ hne _ => absurd rfl hne
  | cons p rest ih =>
    intro hmid hne hlast
    cases rest with
    | nil =>
      have h1 : page_has_more p = false := hlast
      simp [get_all_akahu_requests, get_all_akahu, h1]
    | cons q rest2 =>
      have hp : page_has_more p = true := by
        apply hmid
        simp [List.dropLast]
      have hne2 : q :: rest2 ≠ [] := List.cons_ne_nil q rest2
      have hmid2 : ∀ x ∈ (q :: rest2).dropLast, page_has_more x = true := by
        intro x hx
        apply hmid
        simp only [List.dropLast]
        exact List.mem_cons_of_mem p hx
      have hlast2 : page_has_more ((q :: rest2).getLast hne2) = false := by
        rwa [List.getLast_cons hne2] at hlast
      obtain ⟨ihr, ihi⟩ := ih hmid2 hne2 hlast2
      have e1 : get_all_akahu_requests (p :: q :: rest2) =
          1 + get_all_akahu_requests (q :: rest2) := by
        simp only [get_all_akahu_requests, hp, if_true]
      have e2 : get_all_akahu (p :: q :: rest2) =
          p.items ++ get_all_akahu (q :: rest2) := by
        simp only [get_all_akahu, hp, if_true]
      refine ⟨?_, ?_⟩
      · rw [e1, ihr]
        simp only [List.length_cons]
        omega
      · rw [e2, ihi]
        simp

/-- C5: for a feed of N pages whose last page fails the continuation test
(no cursor field, no next key, a null next value, or zero records) while
the earlier pages continue, get_all_akahu issues exactly N page requests
and returns the concatenation of the items of all N pages in server order;
moreover against any feed whatsoever it never issues more requests than
there are pages. -/
theorem pagination_termination_completeness (pages : List Page)
    (hne : pages ≠ [])
    (hmid : ∀ p ∈ pages.dropLast, page_has_more p = true)
    (hlast : page_has_more (pages.getLast hne) = false) :
    get_all_akahu_requests pages = pages.length ∧
    get_all_akahu pages = (pages.map Page.items).flatten ∧
    ∀ ps : List Page, get_all_akahu_requests ps ≤ ps.length :=
  ⟨(get_all_akahu_complete pages hmid hne hlast).1,
   (get_all_akahu_complete pages hmid hne hlast).2,
   get_all_akahu_requests_le⟩

/-- Witness for C5 on a concrete two-page feed whose second page has no
cursor field. -/
theorem pagination_termination_completeness_witness :
    get_all_akahu_requests pagesW = pagesW.length ∧
    get_all_akahu pagesW = (pagesW.map Page.items).flatten ∧
    ∀ ps : List Page, get_all_akahu_requests ps ≤ ps.length :=
  pagination_termination_completeness pagesW (by simp [pagesW])
    (by
      intro p hp
      simp only [pagesW, List.dropLast, List.mem_singleton] at hp
      subst hp
      rfl)
    (by rfl)

theorem priority_cases (a : String × Mapping) :
    get_account_priority a = 0 ∨ get_account_priority a = 1 := by
  simp only [get_account_priority]
  split_ifs <;> simp

theorem priority_beq (a : String × Mapping) :
    (get_account_priority a == 0) = (account_type_of a.2 == "On Budget") := by
  by_cases h : account_type_of a.2 = "On Budget"
  · simp [get_account_priority, h]
  · simp [get_account_priority, h, ite_self]

theorem insert_zero (x : String × Mapping) (L : List (String × Mapping))
    (hx : get_account_priority x = 0) : insert_by_priority x L = x :: L := by
  cases L with
  | nil => rfl
  | cons y ys => simp [insert_by_priority, hx, Nat.zero_le]

theorem insert_one (x : String × Mapping) (hx : get_account_priority x = 1) :
    ∀ A B : List (String × Mapping),
      (∀ y ∈ A, get_account_priority y = 0) →
      (∀ y ∈ B, get_account_priority y = 1) →
      insert_by_priority x (A ++ B) = A ++ x :: B := by
  intro A
  induction A with
  | nil =>
    intro B _ hB
    cases B with
    | nil => rfl
    | cons z zs =>
      have hz := hB z (by simp)
      simp [insert_by_priority, hx, hz]
  | cons a as ih =>
    intro B hA hB
    have ha := hA a (by simp)
    simp only [List.cons_append, insert_by_priority, hx, ha]
    rw [if_neg (by omega)]
    exact congrArg (List.cons a)
      (ih B (fun y hy => hA y (List.mem_cons_of_mem a hy)) hB)

theorem sorted_eq_filter (l : List (String × Mapping)) :
    sorted_by_priority l =
      l.filter (fun a => get_account_priority a == 0) ++
      l.filter (fun a => !(get_account_priority a == 0)) := by
  induction l with
  | nil => rfl
  | cons x xs ih =>
    rcases priority_cases x with hx | hx
    · rw [sorted_by_priority, ih, insert_zero x _ hx]
      simp [List.filter_cons, hx]
    · rw [sorted_by_priority, ih,
        insert_one x hx (xs.filter fun a => get_account_priority a == 0)
          (xs.filter fun a => !(get_account_priority a == 0)) ?_ ?_]
      · simp [List.filter_cons, hx]
      · intro y hy
        have := (List.mem_filter.mp hy).2
        simpa using this
      · intro y hy
        have h2 := (List.mem_filter.mp hy).2
        rcases priority_cases y with h0 | h1
        · simp [h0] at h2
        · exact h1

/-- C6: the stable priority sort applied by both sync passes places every
On Budget account (including accounts whose account-type field is absent,
which default to On Budget) before every other account (Tracking accounts
and unrecognized types), and within each class preserves the original
mapping iteration order: the result is exactly the On Budget entries in
input order followed by the remaining entries in input order, for every
input ordering. -/
theorem priority_ordering_stable (l : List (String × Mapping)) :
    sorted_by_priority l =
      l.filter (fun a => account_type_of a.2 == "On Budget") ++
      l.filter (fun a => !(account_type_of a.2 == "On Budget")) := by
  rw [sorted_eq_filter l]
  congr 1
  · exact List.filter_congr fun a _ => priority_beq a
  · refine List.filter_congr fun a _ => ?_
    rw [priority_beq]

/-- C3: for a Tracking account, equal balances (compared in cents, the
common minor unit) create no transaction and return 0; different balances
create exactly one adjustment transaction dated today with payee Balance
Adjustment whose signed amount, applied to the destination balance, makes
it equal the source balance; re-invoking with the destination balance now
equal to the source balance creates nothing and returns 0. The same holds
for the destination-A path create_adjustment_txn_ynab in milliunits. -/
theorem tracking_balance_parity (S : ℚ) (D : ℤ) (acct : String) (today : Nat)
    (adjustment_id memo : String) (ledger : List ActualTxn) :
    (pyTrunc (S * 100) = D →
      handle_tracking_account_actual S D acct today adjustment_id memo
        (.ok ()) ledger = .ok (ledger, 0)) ∧
    (pyTrunc (S * 100) ≠ D →
      ∃ adj : ActualTxn,
        handle_tracking_account_actual S D acct today adjustment_id memo
          (.ok ()) ledger = .ok (ledger ++ [adj], 1) ∧
        adj.payee = "Balance Adjustment" ∧
        adj.date = today ∧
        (D : ℚ) + adj.amount * 100 = (pyTrunc (S * 100) : ℚ)) ∧
    handle_tracking_account_actual S (pyTrunc (S * 100)) acct today
      adjustment_id memo (.ok ()) ledger = .ok (ledger, 0) ∧
    ∀ (a y : ℤ) (yacct : String) (ytoday : Nat) (ymemo : String),
      (a = y → create_adjustment_txn_ynab a y yacct ytoday ymemo = none) ∧
      (a ≠ y →
        ∃ adjy : YnabAdjustment,
          create_adjustment_txn_ynab a y yacct ytoday ymemo = some adjy ∧
          y + adjy.amount = a ∧
          adjy.payee_name = "Balance Adjustment" ∧
          adjy.date = ytoday) := by
  refine ⟨?_, ?_, ?_, ?_⟩
  · intro h
    simp [handle_tracking_account_actual, h]
  · intro h
    refine ⟨⟨today, acct, "Balance Adjustment", memo,
      ((pyTrunc (S * 100) - D : ℤ) : ℚ) / 100, adjustment_id, true⟩,
      ?_, rfl, rfl, ?_⟩
    · simp [handle_tracking_account_actual, h]
    · have h100 : (100 : ℚ) ≠ 0 := by norm_num
      rw [div_mul_cancel₀ _ h100]
      push_cast
      ring
  · simp [handle_tracking_account_actual]
  · intro a y yacct ytoday ymemo
    constructor
    · intro h
      simp [create_adjustment_txn_ynab, h]
    · intro h
      refine ⟨⟨yacct, ytoday, a - y, "Balance Adjustment", ymemo, "red",
        "cleared", true⟩, ?_, ?_, rfl, rfl⟩
      · simp [create_adjustment_txn_ynab, sub_ne_zero.mpr h]
      · show y + (a - y) = a
        omega

/-- Witness for C3: with source balance 5 dollars (500 cents) against a
destination balance of 300 cents one adjustment is created; re-invoking at
the converged balance creates nothing; equal milliunit balances on the
destination-A path create nothing. -/
theorem tracking_balance_parity_witness :
    (∃ adj : ActualTxn,
      handle_tracking_account_actual 5 300 "acct-b" 7 "adj1" "memo"
        (.ok ()) [] = .ok ([] ++ [adj], 1) ∧
      adj.payee = "Balance Adjustment" ∧
      adj.date = 7 ∧
      (300 : ℚ) + adj.amount * 100 = (pyTrunc ((5 : ℚ) * 100) : ℚ)) ∧
    handle_tracking_account_actual 5 (pyTrunc ((5 : ℚ) * 100)) "acct-b" 7
      "adj1" "memo" (.ok ()) [] = .ok ([], 0) ∧
    create_adjustment_txn_ynab 4 4 "ya" 3 "m" = none :=
  ⟨(tracking_balance_parity 5 300 "acct-b" 7 "adj1" "memo" []).2.1
      (by norm_num [pyTrunc]),
   (tracking_balance_parity 5 300 "acct-b" 7 "adj1" "memo" []).2.2.1,
   ((tracking_balance_parity 5 300 "acct-b" 7 "adj1" "memo" []).2.2.2
      4 4 "ya" 3 "m").1 rfl⟩

theorem run_rule_preserves (r : Rule) (t : ActualTxn) :
    (run_rule r t).account = t.account ∧
    (run_rule r t).importedId = t.importedId := by
  unfold run_rule
  split <;> exact ⟨rfl, rfl⟩

theorem run_ruleset_preserves (rs : List Rule) (t : ActualTxn) :
    (run_ruleset rs t).account = t.account ∧
    (run_ruleset rs t).importedId = t.importedId := by
  induction rs generalizing t with
  | nil => exact ⟨rfl, rfl⟩
  | cons r rest ih =>
    have step : run_ruleset (r :: rest) t = run_ruleset rest (run_rule r t) :=
      rfl
    rw [step]
    obtain ⟨ha, hi⟩ := ih (run_rule r t)
    obtain ⟨ha2, hi2⟩ := run_rule_preserves r t
    exact ⟨ha.trans ha2, hi.trans hi2⟩

theorem load_loop_duplicate (ruleset : Option (List Rule)) (acct : String)
    (t : SrcTxn) (d : Nat) (ledger : List ActualTxn)
    (hd : convert_to_nzt t.date = some d)
    (hex : ∃ r ∈ ledger, (r.account == acct && r.importedId == t.id) = true) :
    load_loop ruleset acct [t] ledger [] = .ok (ledger, []) := by
  have hsome : ((ledger ++ ([] : List ActualTxn)).find?
      (fun r => r.account == acct && r.importedId == t.id)).isSome := by
    rw [List.find?_isSome]
    simpa using hex
  cases hf : (ledger ++ ([] : List ActualTxn)).find?
      (fun r => r.account == acct && r.importedId == t.id) with
  | none => rw [hf] at hsome; simp at hsome
  | some r =>
    simp only [load_loop, hd, reconcile_transaction, hf]

/-- C1: if a source transaction was loaded into destination B (with any
rule set and any prior ledger), then the resulting ledger contains a record
for that account carrying the import id of the source transaction, and
re-submitting the same transaction matches that record, leaves the ledger
exactly unchanged (no mutation of the match, no second record), and reports
an imported count of zero. -/
theorem idempotent_import_into_actual (ruleset : Option (List Rule))
    (acct : String) (t : SrcTxn) (ledger0 ledger1 : List ActualTxn)
    (n1 : Option Nat)
    (h : load_transactions_into_actual ruleset acct (.ok ()) [t] ledger0 =
      .ok (ledger1, n1)) :
    (∃ r ∈ ledger1, r.account = acct ∧ r.importedId = t.id) ∧
    load_transactions_into_actual ruleset acct (.ok ()) [t] ledger1 =
      .ok (ledger1, some 0) := by
  simp only [load_transactions_into_actual, List.isEmpty_cons,
    Bool.false_eq_true, if_false] at h
  cases hdate : convert_to_nzt t.date with
  | none =>
    rw [load_loop, hdate] at h
    simp at h
  | some d =>
    have hmem : ∃ r ∈ ledger1,
        (r.account == acct && r.importedId == t.id) = true := by
      cases hl : load_loop ruleset acct [t] ledger0 [] with
      | error e => rw [hl] at h; simp at h
      | ok v =>
        obtain ⟨ledger2, imported⟩ := v
        rw [hl] at h
        simp only [Except.ok.injEq, Prod.mk.injEq] at h
        obtain ⟨hle, _⟩ := h
        rw [load_loop, hdate] at hl
        simp only [reconcile_transaction] at hl
        cases hf : (ledger0 ++ ([] : List ActualTxn)).find?
            (fun r => r.account == acct && r.importedId == t.id) with
        | some r =>
          rw [hf] at hl
          simp only [load_loop, Except.ok.injEq, Prod.mk.injEq] at hl
          refine ⟨r, ?_, ?_⟩
          · have hr := List.mem_of_find?_eq_some hf
            rw [List.append_nil] at hr
            rw [← hle, ← hl.1]
            exact hr
          · simpa using List.find?_some hf
        | none =>
          rw [hf] at hl
          simp only [load_loop, Except.ok.injEq, Prod.mk.injEq] at hl
          cases ruleset with
          | none =>
            refine ⟨⟨d, acct, t.description, t.description,
              quantize4 t.amount, t.id, true⟩, ?_, ?_⟩
            · rw [← hle, ← hl.1]
              simp
            · simp
          | some rs =>
            refine ⟨run_ruleset rs ⟨d, acct, t.description, t.description,
              quantize4 t.amount, t.id, true⟩, ?_, ?_⟩
            · rw [← hle, ← hl.1]
              simp
            · have hp := run_ruleset_preserves rs
                ⟨d, acct, t.description, t.description, quantize4 t.amount,
                  t.id, true⟩
              simp [hp.1, hp.2]
    refine ⟨?_, ?_⟩
    · obtain ⟨r, hrmem, hrp⟩ := hmem
      simp only [Bool.and_eq_true, beq_iff_eq] at hrp
      exact ⟨r, hrmem, hrp⟩
    · simp only [load_transactions_into_actual, List.isEmpty_cons,
        Bool.false_eq_true, if_false,
        load_loop_duplicate ruleset acct t d ledger1 hdate hmem,
        List.length_nil]

/-- Witness for C1: loading the concrete transaction txA into an empty
ledger creates one record, and loading it again leaves the ledger unchanged
with an imported count of zero. -/
theorem idempotent_import_into_actual_witness :
    (∃ r ∈ ledgerW, r.account = "acct-b" ∧ r.importedId = txA.id) ∧
    load_transactions_into_actual none "acct-b" (.ok ()) [txA] ledgerW =
      .ok (ledgerW, some 0) :=
  idempotent_import_into_actual none "acct-b" txA [] ledgerW (some 1) rfl

theorem step_ab_flagged (env : ABEnv) (st : PassState) (id : String)
    (m : Mapping) (h : m.actual_do_not_map = true) :
    step_ab env st (id, m) = (none, st) := by
  simp [step_ab, h]

theorem step_ab_missing_ids (env : ABEnv) (st : PassState) (id : String)
    (m : Mapping)
    (h : (truthy m.actual_budget_id && truthy m.actual_account_id) = false) :
    step_ab env st (id, m) = (none, st) := by
  cases h1 : m.actual_do_not_map with
  | true => exact step_ab_flagged env st id m h1
  | false => simp [step_ab, h1, h]

theorem step_ynab_flagged (env : YnabEnv) (st : PassState) (id : String)
    (m : Mapping) (h : m.ynab_do_not_map = true) :
    step_ynab env st (id, m) = (none, st) := by
  simp [step_ynab, h]

theorem step_ynab_missing_ids (env : YnabEnv) (st : PassState) (id : String)
    (m : Mapping)
    (h : (truthy m.ynab_budget_id && truthy m.ynab_account_id) = false) :
    step_ynab env st (id, m) = (none, st) := by
  cases h1 : m.ynab_do_not_map with
  | true => exact step_ynab_flagged env st id m h1
  | false => simp [step_ynab, h1, h]

theorem step_ab_shape (env : ABEnv) (st : PassState) (id : String)
    (m : Mapping) :
    ∃ (o : Option SyncError) (u2 : Nat) (S : List String) (L : List Effect),
      step_ab env st (id, m) =
        (o, ⟨u2, st.successful ++ S, st.effects ++ L⟩) ∧
      (∀ eff ∈ L, Effect.account eff = id ∧ m.actual_do_not_map = false) ∧
      (∀ i ∈ S, i = id ∧ m.actual_do_not_map = false ∧
        (truthy m.actual_budget_id && truthy m.actual_account_id) = true ∧
        ((account_type_of m = "Tracking" ∧
            (∃ b, env.akahuBalance id = some b) ∧
            ∃ n, env.trackingOutcome id = .ok n) ∨
          (account_type_of m = "On Budget" ∧
            (∃ ts, env.fetchTxns id = .ok ts ∧ ts.isEmpty = false) ∧
            ∃ n, env.loadOutcome id = .ok n))) := by
  by_cases h1 : m.actual_do_not_map = true
  · exact ⟨none, st.uploaded, [], [], by simp [step_ab, h1], by simp, by simp⟩
  rw [Bool.not_eq_true] at h1
  by_cases h2 :
      (truthy m.actual_budget_id && truthy m.actual_account_id) = true
  case neg =>
    rw [Bool.not_eq_true] at h2
    exact ⟨none, st.uploaded, [], [], by simp [step_ab, h1, h2], by simp,
      by simp⟩
  by_cases h3 : account_type_of m = "Tracking"
  · cases hb : env.akahuBalance id with
    | none =>
      refine ⟨none, st.uploaded, [], [.sourceRead id],
        by simp [step_ab, h1, h2, h3, hb], ?_, by simp⟩
      intro eff heff
      rw [List.mem_singleton] at heff
      subst heff
      exact ⟨rfl, h1⟩
    | some b =>
      cases ht : env.trackingOutcome id with
      | error er =>
        refine ⟨some er, st.uploaded, [],
          [.sourceRead id, .destRead id, .destWrite id],
          by simp [step_ab, h1, h2, h3, hb, ht], ?_, by simp⟩
        intro eff heff
        simp only [List.mem_cons, List.not_mem_nil, or_false] at heff
        rcases heff with rfl | rfl | rfl <;> exact ⟨rfl, h1⟩
      | ok n =>
        refine ⟨none, st.uploaded + n, [id],
          [.sourceRead id, .destRead id, .destWrite id],
          by simp [step_ab, h1, h2, h3, hb, ht], ?_, ?_⟩
        · intro eff heff
          simp only [List.mem_cons, List.not_mem_nil, or_false] at heff
          rcases heff with rfl | rfl | rfl <;> exact ⟨rfl, h1⟩
        · intro i hi
          rw [List.mem_singleton] at hi
          subst hi
          exact ⟨rfl, h1, h2, Or.inl ⟨h3, ⟨b, rfl⟩, ⟨n, rfl⟩⟩⟩
  by_cases h4 : account_type_of m = "On Budget"
  · cases hfetch : env.fetchTxns id with
    | error er =>
      refine ⟨some er, st.uploaded, [], [.sourceRead id],
        by simp [step_ab, h1, h2, h3, h4, hfetch], ?_, by simp⟩
      intro eff heff
      rw [List.mem_singleton] at heff
      subst heff
      exact ⟨rfl, h1⟩
    | ok ts =>
      by_cases h5 : ts.isEmpty = true
      · refine ⟨none, st.uploaded, [], [.sourceRead id],
          by simp [step_ab, h1, h2, h3, h4, hfetch, h5], ?_, by simp⟩
        intro eff heff
        rw [List.mem_singleton] at heff
        subst heff
        exact ⟨rfl, h1⟩
      · rw [Bool.not_eq_true] at h5
        cases hload : env.loadOutcome id with
        | error er =>
          refine ⟨some er, st.uploaded, [],
            [.sourceRead id, .destWrite id],
            by simp [step_ab, h1, h2, h3, h4, hfetch, h5, hload], ?_,
            by simp⟩
          intro eff heff
          simp only [List.mem_cons, List.not_mem_nil, or_false] at heff
          rcases heff with rfl | rfl <;> exact ⟨rfl, h1⟩
        | ok n =>
          refine ⟨none, st.uploaded + n, [id],
            [.sourceRead id, .destWrite id],
            by simp [step_ab, h1, h2, h3, h4, hfetch, h5, hload], ?_, ?_⟩
          · intro eff heff
            simp only [List.mem_cons, List.not_mem_nil, or_false] at heff
            rcases heff with rfl | rfl <;> exact ⟨rfl, h1⟩
          · intro i hi
            rw [List.mem_singleton] at hi
            subst hi
            exact ⟨rfl, h1, h2, Or.inr ⟨h4, ⟨ts, rfl, h5⟩, ⟨n, rfl⟩⟩⟩
  · exact ⟨some .bareRaise, st.uploaded, [], [],
      by simp [step_ab, h1, h2, h3, h4], by simp, by simp⟩

theorem step_ynab_shape (env : YnabEnv) (st : PassState) (id : String)
    (m : Mapping) :
    ∃ (o : Option SyncError) (u2 : Nat) (S : List String) (L : List Effect),
      step_ynab env st (id, m) =
        (o, ⟨u2, st.successful ++ S, st.effects ++ L⟩) ∧
      (∀ eff ∈ L, Effect.account eff = id ∧ m.ynab_do_not_map = false) ∧
      (∀ i ∈ S, i = id ∧ m.ynab_do_not_map = false ∧
        (truthy m.ynab_budget_id && truthy m.ynab_account_id) = true ∧
        (account_type_of m = "Tracking" ∨
          (account_type_of m = "On Budget" ∧
            (∃ ts, env.fetchTxns id = .ok ts ∧ ts.isEmpty = false) ∧
            ∃ n, env.loadOutcome id = .ok n))) := by
  by_cases h1 : m.ynab_do_not_map = true
  · exact ⟨none, st.uploaded, [], [], by simp [step_ynab, h1], by simp,
      by simp⟩
  rw [Bool.not_eq_true] at h1
  by_cases h2 : (truthy m.ynab_budget_id && truthy m.ynab_account_id) = true
  case neg =>
    rw [Bool.not_eq_true] at h2
    exact ⟨none, st.uploaded, [], [], by simp [step_ynab, h1, h2], by simp,
      by simp⟩
  by_cases h3 : account_type_of m = "Tracking"
  · cases hb : env.akahuBalance id with
    | none =>
      refine ⟨some .balanceError, st.uploaded, [],
        [.sourceRead id, .destRead id, .sourceRead id],
        by simp [step_ynab, h1, h2, h3, hb], ?_, by simp⟩
      intro eff heff
      simp only [List.mem_cons, List.not_mem_nil, or_false] at heff
      rcases heff with rfl | rfl | rfl <;> exact ⟨rfl, h1⟩
    | some bal =>
      by_cases h6 : env.ynabBalanceMilli id ≠ pyTrunc (bal * 1000)
      · cases ha : env.adjustOutcome id with
        | error er =>
          refine ⟨some er, st.uploaded, [],
            [.sourceRead id, .destRead id, .sourceRead id, .destWrite id],
            by simp [step_ynab, h1, h2, h3, hb, h6, ha], ?_, by simp⟩
          intro eff heff
          simp only [List.mem_cons, List.not_mem_nil, or_false] at heff
          rcases heff with rfl | rfl | rfl | rfl <;> exact ⟨rfl, h1⟩
        | ok u =>
          refine ⟨none, st.uploaded + 1, [id],
            [.sourceRead id, .destRead id, .sourceRead id, .destWrite id],
            by simp [step_ynab, h1, h2, h3, hb, h6, ha], ?_, ?_⟩
          · intro eff heff
            simp only [List.mem_cons, List.not_mem_nil, or_false] at heff
            rcases heff with rfl | rfl | rfl | rfl <;> exact ⟨rfl, h1⟩
          · intro i hi
            rw [List.mem_singleton] at hi
            subst hi
            exact ⟨rfl, h1, h2, Or.inl h3⟩
      · refine ⟨none, st.uploaded, [id],
          [.sourceRead id, .destRead id, .sourceRead id],
          by simp [step_ynab, h1, h2, h3, hb, h6], ?_, ?_⟩
        · intro eff heff
          simp only [List.mem_cons, List.not_mem_nil, or_false] at heff
          rcases heff with rfl | rfl | rfl <;> exact ⟨rfl, h1⟩
        · intro i hi
          rw [List.mem_singleton] at hi
          subst hi
          exact ⟨rfl, h1, h2, Or.inl h3⟩
  by_cases h4 : account_type_of m = "On Budget"
  · cases hfetch : env.fetchTxns id with
    | error er =>
      refine ⟨some er, st.uploaded, [], [.sourceRead id],
        by simp [step_ynab, h1, h2, h3, h4, hfetch], ?_, by simp⟩
      intro eff heff
      rw [List.mem_singleton] at heff
      subst heff
      exact ⟨rfl, h1⟩
    | ok ts =>
      by_cases h5 : ts.isEmpty = true
      · refine ⟨none, st.uploaded, [], [.sourceRead id],
          by simp [step_ynab, h1, h2, h3, h4, hfetch, h5], ?_, by simp⟩
        intro eff heff
        rw [List.mem_singleton] at heff
        subst heff
        exact ⟨rfl, h1⟩
      · rw [Bool.not_eq_true] at h5
        cases hload : env.loadOutcome id with
        | error er =>
          refine ⟨some er, st.uploaded, [],
            [.sourceRead id, .destWrite id],
            by simp [step_ynab, h1, h2, h3, h4, hfetch, h5, hload], ?_,
            by simp⟩
          intro eff heff
          simp only [List.mem_cons, List.not_mem_nil, or_false] at heff
          rcases heff with rfl | rfl <;> exact ⟨rfl, h1⟩
        | ok n =>
          refine ⟨none, st.uploaded + n, [id],
            [.sourceRead id, .destWrite id],
            by simp [step_ynab, h1, h2, h3, h4, hfetch, h5, hload], ?_, ?_⟩
          · intro eff heff
            simp only [List.mem_cons, List.not_mem_nil, or_false] at heff
            rcases heff with rfl | rfl <;> exact ⟨rfl, h1⟩
          · intro i hi
            rw [List.mem_singleton] at hi
            subst hi
            exact ⟨rfl, h1, h2, Or.inr ⟨h4, ⟨ts, rfl, h5⟩, ⟨n, rfl⟩⟩⟩
  · exact ⟨none, st.uploaded, [], [], by simp [step_ynab, h1, h2, h3, h4],
      by simp, by simp⟩

theorem run_accounts_trace
    (step : PassState → (String × Mapping) → Option SyncError × PassState)
    (P : Effect → (String × Mapping) → Prop)
    (Q : String → (String × Mapping) → Prop)
    (hstepE : ∀ st e, ∀ eff ∈ (step st e).2.effects,
      eff ∈ st.effects ∨ P eff e)
    (hstepS : ∀ st e, ∀ i ∈ (step st e).2.successful,
      i ∈ st.successful ∨ Q i e) :
    ∀ (L : List (String × Mapping)) (st : PassState),
      (∀ eff ∈ (run_accounts step L st).2.effects,
        eff ∈ st.effects ∨ ∃ e ∈ L, P eff e) ∧
      (∀ i ∈ (run_accounts step L st).2.successful,
        i ∈ st.successful ∨ ∃ e ∈ L, Q i e) := by
  intro L
  induction L with
  | nil =>
    intro st
    exact ⟨fun x hx => Or.inl hx, fun x hx => Or.inl hx⟩
  | cons e rest ih =>
    intro st
    cases hs : step st e with
    | mk o st2 =>
      cases o with
      | some err =>
        have hrun : run_accounts step (e :: rest) st = (some err, st2) := by
          rw [run_accounts, hs]
        rw [hrun]
        constructor
        · intro x hx
          rcases hstepE st e x (by rw [hs]; exact hx) with h | h
          · exact Or.inl h
          · exact Or.inr ⟨e, List.mem_cons_self e rest, h⟩
        · intro x hx
          rcases hstepS st e x (by rw [hs]; exact hx) with h | h
          · exact Or.inl h
          · exact Or.inr ⟨e, List.mem_cons_self e rest, h⟩
      | none =>
        have hrun : run_accounts step (e :: rest) st =
            run_accounts step rest st2 := by
          rw [run_accounts, hs]
        rw [hrun]
        constructor
        · intro x hx
          rcases (ih st2).1 x hx with h | ⟨e2, he2, hP⟩
          · rcases hstepE st e x (by rw [hs]; exact h) with h3 | h3
            · exact Or.inl h3
            · exact Or.inr ⟨e, List.mem_cons_self e rest, h3⟩
          · exact Or.inr ⟨e2, List.mem_cons_of_mem e he2, hP⟩
        · intro x hx
          rcases (ih st2).2 x hx with h | ⟨e2, he2, hQ⟩
          · rcases hstepS st e x (by rw [hs]; exact h) with h3 | h3
            · exact Or.inl h3
            · exact Or.inr ⟨e, List.mem_cons_self e rest, h3⟩
          · exact Or.inr ⟨e2, List.mem_cons_of_mem e he2, hQ⟩

theorem run_accounts_skip
    (step : PassState → (String × Mapping) → Option SyncError × PassState)
    (p : (String × Mapping) → Bool) :
    ∀ L : List (String × Mapping),
      (∀ e ∈ L, p e = false → ∀ st2, step st2 e = (none, st2)) →
      ∀ st, run_accounts step (L.filter p) st = run_accounts step L st := by
  intro L
  induction L with
  | nil => intro _ _; rfl
  | cons e rest ih =>
    intro hid st
    have hrest : ∀ e2 ∈ rest, p e2 = false → ∀ st2, step st2 e2 = (none, st2) :=
      fun e2 he2 => hid e2 (List.mem_cons_of_mem e he2)
    cases hp : p e with
    | true =>
      rw [List.filter_cons_of_pos hp, run_accounts, run_accounts]
      cases hs : step st e with
      | mk o st2 =>
        cases o with
        | some err => rfl
        | none => exact ih hrest st2
    | false =>
      rw [List.filter_cons_of_neg (by simp [hp]), run_accounts,
        hid e (List.mem_cons_self e rest) hp st]
      exact ih hrest st

theorem sorted_filter_comm (l : List (String × Mapping))
    (p : (String × Mapping) → Bool) :
    sorted_by_priority (l.filter p) = (sorted_by_priority l).filter p := by
  rw [sorted_eq_filter, sorted_eq_filter, List.filter_append]
  congr 1
  · rw [List.filter_filter, List.filter_filter]
    exact List.filter_congr fun a _ => Bool.and_comm _ _
  · rw [List.filter_filter, List.filter_filter]
    exact List.filter_congr fun a _ => Bool.and_comm _ _

theorem mem_sorted_iff (l : List (String × Mapping))
    (a : String × Mapping) : a ∈ sorted_by_priority l ↔ a ∈ l := by
  rw [sorted_eq_filter, List.mem_append, List.mem_filter, List.mem_filter]
  constructor
  · rintro (⟨h, _⟩ | ⟨h, _⟩) <;> exact h
  · intro h
    by_cases hp : (get_account_priority a == 0) = true
    · exact Or.inl ⟨h, hp⟩
    · exact Or.inr ⟨h, by simp [Bool.not_eq_true] at hp; simp [hp]⟩

theorem update_mapping_timestamps_nil (store : Store) (now : String) :
    update_mapping_timestamps store [] [] now = store := by
  unfold update_mapping_timestamps
  simp

theorem update_mapping_timestamps_filter_ne (store : Store)
    (ab yn : List String) (now : String) (id : String)
    (hab : id ∉ ab) (hyn : id ∉ yn) :
    (update_mapping_timestamps store ab yn now).filter
        (fun e => e.1 == id) =
      store.filter (fun e => e.1 == id) := by
  have hcab : ab.contains id = false := by simpa using hab
  have hcyn : yn.contains id = false := by simpa using hyn
  induction store with
  | nil => rfl
  | cons e rest ih =>
    unfold update_mapping_timestamps
    unfold update_mapping_timestamps at ih
    rw [List.map_cons, List.filter_cons, List.filter_cons]
    by_cases he : e.1 = id
    · have hkey : (e.1 == id) = true := by simp [he]
      simp only [hkey, if_true]
      rw [ih]
      congr 1
      simp [he, hab, hyn, Prod.ext_iff]
    · have hkey : (e.1 == id) = false := by simp [he]
      simp only [hkey, Bool.false_eq_true, if_false]
      exact ih

theorem sync_to_ab_fields (env : ABEnv) (l : List (String × Mapping))
    (store : Store) (now : String) :
    ∃ (o : Option SyncError) (st : PassState),
      run_accounts (step_ab env) (sorted_by_priority l) ⟨0, [], []⟩ =
        (o, st) ∧
      (sync_to_ab env l store now).effects = st.effects ∧
      (sync_to_ab env l store now).successful = st.successful ∧
      ((sync_to_ab env l store now).store = store ∨
        (sync_to_ab env l store now).store =
          update_mapping_timestamps store st.successful [] now) := by
  cases hr : run_accounts (step_ab env) (sorted_by_priority l) ⟨0, [], []⟩
    with
  | mk o st =>
    refine ⟨o, st, rfl, ?_⟩
    cases o with
    | some e =>
      have hres : sync_to_ab env l store now =
          ⟨some e, st.uploaded, st.successful, st.effects, store⟩ := by
        unfold sync_to_ab
        simp only [hr]
      rw [hres]
      exact ⟨rfl, rfl, Or.inl rfl⟩
    | none =>
      by_cases hu : st.uploaded > 0
      · cases hc : env.commitOutcome with
        | error e2 =>
          have hres : sync_to_ab env l store now =
              ⟨some e2, st.uploaded, st.successful, st.effects, store⟩ := by
            unfold sync_to_ab
            simp only [hr]
            simp [hu, hc]
          rw [hres]
          exact ⟨rfl, rfl, Or.inl rfl⟩
        | ok u =>
          by_cases hs : st.successful.isEmpty
          · have hres : sync_to_ab env l store now =
                ⟨none, st.uploaded, st.successful, st.effects, store⟩ := by
              unfold sync_to_ab
              simp only [hr]
              simp [hu, hc, hs]
            rw [hres]
            exact ⟨rfl, rfl, Or.inl rfl⟩
          · have hres : sync_to_ab env l store now =
                ⟨none, st.uploaded, st.successful, st.effects,
                  update_mapping_timestamps store st.successful [] now⟩ := by
              unfold sync_to_ab
              simp only [hr]
              simp [hu, hc, hs]
            rw [hres]
            exact ⟨rfl, rfl, Or.inr rfl⟩
      · by_cases hs : st.successful.isEmpty
        · have hres : sync_to_ab env l store now =
              ⟨none, st.uploaded, st.successful, st.effects, store⟩ := by
            unfold sync_to_ab
            simp only [hr]
            simp [hu, hs]
          rw [hres]
          exact ⟨rfl, rfl, Or.inl rfl⟩
        · have hres : sync_to_ab env l store now =
              ⟨none, st.uploaded, st.successful, st.effects,
                update_mapping_timestamps store st.successful [] now⟩ := by
            unfold sync_to_ab
            simp only [hr]
            simp [hu, hs]
          rw [hres]
          exact ⟨rfl, rfl, Or.inr rfl⟩

theorem sync_to_ynab_fields (env : YnabEnv) (l : List (String × Mapping))
    (store : Store) (now : String) :
    ∃ (o : Option SyncError) (st : PassState),
      run_accounts (step_ynab env) (sorted_by_priority l) ⟨0, [], []⟩ =
        (o, st) ∧
      (sync_to_ynab env l store now).effects = st.effects ∧
      (sync_to_ynab env l store now).successful = st.successful ∧
      ((sync_to_ynab env l store now).store = store ∨
        (sync_to_ynab env l store now).store =
          update_mapping_timestamps store [] st.successful now) := by
  cases hr : run_accounts (step_ynab env) (sorted_by_priority l) ⟨0, [], []⟩
    with
  | mk o st =>
    refine ⟨o, st, rfl, ?_⟩
    cases o with
    | some e =>
      have hres : sync_to_ynab env l store now =
          ⟨some e, st.uploaded, st.successful, st.effects, store⟩ := by
        unfold sync_to_ynab
        simp only [hr]
      rw [hres]
      exact ⟨rfl, rfl, Or.inl rfl⟩
    | none =>
      by_cases hs : st.successful.isEmpty
      · have hres : sync_to_ynab env l store now =
            ⟨none, st.uploaded, st.successful, st.effects, store⟩ := by
          unfold sync_to_ynab
          simp only [hr]
          simp [hs]
        rw [hres]
        exact ⟨rfl, rfl, Or.inl rfl⟩
      · have hres : sync_to_ynab env l store now =
            ⟨none, st.uploaded, st.successful, st.effects,
              update_mapping_timestamps store [] st.successful now⟩ := by
          unfold sync_to_ynab
          simp only [hr]
          simp [hs]
        rw [hres]
        exact ⟨rfl, rfl, Or.inr rfl⟩

theorem step_ab_effects_prop (env : ABEnv) (st : PassState)
    (e : String × Mapping) :
    ∀ eff ∈ (step_ab env st e).2.effects,
      eff ∈ st.effects ∨
        (Effect.account eff = e.1 ∧ e.2.actual_do_not_map = false) := by
  intro eff heff
  obtain ⟨o, u2, S, L, heq, hL, _⟩ := step_ab_shape env st e.1 e.2
  rw [heq] at heff
  simp only [List.mem_append] at heff
  rcases heff with h | h
  · exact Or.inl h
  · exact Or.inr (hL eff h)

theorem step_ab_successful_prop (env : ABEnv) (st : PassState)
    (e : String × Mapping) :
    ∀ i ∈ (step_ab env st e).2.successful,
      i ∈ st.successful ∨
        (i = e.1 ∧ e.2.actual_do_not_map = false ∧
          (truthy e.2.actual_budget_id && truthy e.2.actual_account_id) =
            true ∧
          ((account_type_of e.2 = "Tracking" ∧
              (∃ b, env.akahuBalance e.1 = some b) ∧
              ∃ n, env.trackingOutcome e.1 = .ok n) ∨
            (account_type_of e.2 = "On Budget" ∧
              (∃ ts, env.fetchTxns e.1 = .ok ts ∧ ts.isEmpty = false) ∧
              ∃ n, env.loadOutcome e.1 = .ok n))) := by
  intro i hi
  obtain ⟨o, u2, S, L, heq, _, hS⟩ := step_ab_shape env st e.1 e.2
  rw [heq] at hi
  simp only [List.mem_append] at hi
  rcases hi with h | h
  · exact Or.inl h
  · exact Or.inr (hS i h)

theorem step_ynab_effects_prop (env : YnabEnv) (st : PassState)
    (e : String × Mapping) :
    ∀ eff ∈ (step_ynab env st e).2.effects,
      eff ∈ st.effects ∨
        (Effect.account eff = e.1 ∧ e.2.ynab_do_not_map = false) := by
  intro eff heff
  obtain ⟨o, u2, S, L, heq, hL, _⟩ := step_ynab_shape env st e.1 e.2
  rw [heq] at heff
  simp only [List.mem_append] at heff
  rcases heff with h | h
  · exact Or.inl h
  · exact Or.inr (hL eff h)

theorem step_ynab_successful_prop (env : YnabEnv) (st : PassState)
    (e : String × Mapping) :
    ∀ i ∈ (step_ynab env st e).2.successful,
      i ∈ st.successful ∨
        (i = e.1 ∧ e.2.ynab_do_not_map = false ∧
          (truthy e.2.ynab_budget_id && truthy e.2.ynab_account_id) = true ∧
          (account_type_of e.2 = "Tracking" ∨
            (account_type_of e.2 = "On Budget" ∧
              (∃ ts, env.fetchTxns e.1 = .ok ts ∧ ts.isEmpty = false) ∧
              ∃ n, env.loadOutcome e.1 = .ok n))) := by
  intro i hi
  obtain ⟨o, u2, S, L, heq, _, hS⟩ := step_ynab_shape env st e.1 e.2
  rw [heq] at hi
  simp only [List.mem_append] at hi
  rcases hi with h | h
  · exact Or.inl h
  · exact Or.inr (hS i h)

/-- C2: for every oracle set, mapping list and persisted store, if the
sync_to_ab pass raises anywhere (during any account or during the final
commit and remote-sync round trip) then the persisted store is left exactly
as it was, including the watermarks of accounts processed successfully
earlier in the same pass; and if the pass completes without raising, the
store is exactly the result of the single batch timestamp update applied
after the whole pass, so watermarks are never persisted incrementally. -/
theorem watermark_batch_safety (env : ABEnv) (l : List (String × Mapping))
    (store : Store) (now : String) :
    ((sync_to_ab env l store now).err ≠ none →
      (sync_to_ab env l store now).store = store) ∧
    ((sync_to_ab env l store now).err = none →
      (sync_to_ab env l store now).store =
        update_mapping_timestamps store
          (sync_to_ab env l store now).successful [] now) := by
  cases hr : run_accounts (step_ab env) (sorted_by_priority l) ⟨0, [], []⟩
    with
  | mk o st =>
    cases o with
    | some e =>
      have hres : sync_to_ab env l store now =
          ⟨some e, st.uploaded, st.successful, st.effects, store⟩ := by
        unfold sync_to_ab
        simp only [hr]
      rw [hres]
      exact ⟨fun _ => rfl, fun h => by simp at h⟩
    | none =>
      by_cases hu : st.uploaded > 0
      · cases hc : env.commitOutcome with
        | error e2 =>
          have hres : sync_to_ab env l store now =
              ⟨some e2, st.uploaded, st.successful, st.effects, store⟩ := by
            unfold sync_to_ab
            simp only [hr]
            simp [hu, hc]
          rw [hres]
          exact ⟨fun _ => rfl, fun h => by simp at h⟩
        | ok u =>
          by_cases hs : st.successful.isEmpty
          · have hse : st.successful = [] := List.isEmpty_iff.mp hs
            have hres : sync_to_ab env l store now =
                ⟨none, st.uploaded, st.successful, st.effects, store⟩ := by
              unfold sync_to_ab
              simp only [hr]
              simp [hu, hc, hs]
            rw [hres]
            refine ⟨fun h => absurd rfl h, fun _ => ?_⟩
            rw [hse, update_mapping_timestamps_nil]
          · have hres : sync_to_ab env l store now =
                ⟨none, st.uploaded, st.successful, st.effects,
                  update_mapping_timestamps store st.successful [] now⟩ := by
              unfold sync_to_ab
              simp only [hr]
              simp [hu, hc, hs]
            rw [hres]
            exact ⟨fun h => absurd rfl h, fun _ => rfl⟩
      · by_cases hs : st.successful.isEmpty
        · have hse : st.successful = [] := List.isEmpty_iff.mp hs
          have hres : sync_to_ab env l store now =
              ⟨none, st.uploaded, st.successful, st.effects, store⟩ := by
            unfold sync_to_ab
            simp only [hr]
            simp [hu, hs]
          rw [hres]
          refine ⟨fun h => absurd rfl h, fun _ => ?_⟩
          rw [hse, update_mapping_timestamps_nil]
        · have hres : sync_to_ab env l store now =
              ⟨none, st.uploaded, st.successful, st.effects,
                update_mapping_timestamps store st.successful [] now⟩ := by
            unfold sync_to_ab
            simp only [hr]
            simp [hu, hs]
          rw [hres]
          exact ⟨fun h => absurd rfl h, fun _ => rfl⟩

/-- Witness for C2: a pass whose feed fetch raises leaves the concrete
store untouched, and a pass that completes produces exactly the batch
update of the store with its successful set. -/
theorem watermark_batch_safety_witness :
    (sync_to_ab envFailAB [("acc1", mapOB)] storeW "T").store = storeW ∧
    (sync_to_ab envOkAB [("acc1", mapOB)] storeW "T").store =
      update_mapping_timestamps storeW
        (sync_to_ab envOkAB [("acc1", mapOB)] storeW "T").successful []
        "T" :=
  ⟨(watermark_batch_safety envFailAB [("acc1", mapOB)] storeW "T").1
      (fun h => nomatch h),
   (watermark_batch_safety envOkAB [("acc1", mapOB)] storeW "T").2 rfl⟩

/-- C7: for every account whose do-not-sync flag is set for a destination,
the corresponding sync pass performs no source fetch, no destination read
or write, and no watermark update for that account: the pass trace contains
no network operation touching the account, the account never enters the
successful-sync set, and its persisted store entries are unchanged;
moreover the batch timestamp update itself refuses to touch a flagged
entry even when the account id is listed. -/
theorem do_not_sync_isolation :
    (∀ (env : ABEnv) (l : List (String × Mapping)) (store : Store)
        (now id : String),
      (∀ m : Mapping, (id, m) ∈ l → m.actual_do_not_map = true) →
      (∀ eff ∈ (sync_to_ab env l store now).effects,
        Effect.account eff ≠ id) ∧
      id ∉ (sync_to_ab env l store now).successful ∧
      (sync_to_ab env l store now).store.filter (fun e => e.1 == id) =
        store.filter (fun e => e.1 == id)) ∧
    (∀ (env : YnabEnv) (l : List (String × Mapping)) (store : Store)
        (now id : String),
      (∀ m : Mapping, (id, m) ∈ l → m.ynab_do_not_map = true) →
      (∀ eff ∈ (sync_to_ynab env l store now).effects,
        Effect.account eff ≠ id) ∧
      id ∉ (sync_to_ynab env l store now).successful ∧
      (sync_to_ynab env l store now).store.filter (fun e => e.1 == id) =
        store.filter (fun e => e.1 == id)) ∧
    (∀ (ab : List String) (now2 id2 : String) (m : Mapping),
      m.actual_do_not_map = true →
      update_mapping_timestamps [(id2, m)] ab [] now2 = [(id2, m)]) := by
  refine ⟨?_, ?_, ?_⟩
  · intro env l store now id hflag
    obtain ⟨o, st, hr, hef, hsu, hst⟩ := sync_to_ab_fields env l store now
    have htrace := run_accounts_trace (step_ab env) _ _
      (step_ab_effects_prop env) (step_ab_successful_prop env)
      (sorted_by_priority l) ⟨0, [], []⟩
    have hnotsucc : id ∉ st.successful := by
      intro hmem
      rcases htrace.2 id (by rw [hr]; exact hmem) with h | ⟨e, hel, hQ⟩
      · simp at h
      · obtain ⟨heq, hflagf, _⟩ := hQ
        have hmem2 : (id, e.2) ∈ l := by
          have he : (id, e.2) = e := by rw [heq]
          rw [he]
          exact (mem_sorted_iff l e).mp hel
        have := hflag e.2 hmem2
        rw [hflagf] at this
        exact absurd this (by simp)
    refine ⟨?_, ?_, ?_⟩
    · intro eff heff hacc
      rw [hef] at heff
      rcases htrace.1 eff (by rw [hr]; exact heff) with h | ⟨e, hel, hacc2,
        hflagf⟩
      · simp at h
      · have he1 : e.1 = id := hacc2.symm.trans hacc
        have hmem2 : (id, e.2) ∈ l := by
          have he : (id, e.2) = e := by rw [← he1]
          rw [he]
          exact (mem_sorted_iff l e).mp hel
        have := hflag e.2 hmem2
        rw [hflagf] at this
        exact absurd this (by simp)
    · rw [hsu]
      exact hnotsucc
    · rcases hst with h | h
      · rw [h]
      · rw [h]
        exact update_mapping_timestamps_filter_ne store st.successful [] now
          id hnotsucc (by simp)
  · intro env l store now id hflag
    obtain ⟨o, st, hr, hef, hsu, hst⟩ := sync_to_ynab_fields env l store now
    have htrace := run_accounts_trace (step_ynab env) _ _
      (step_ynab_effects_prop env) (step_ynab_successful_prop env)
      (sorted_by_priority l) ⟨0, [], []⟩
    have hnotsucc : id ∉ st.successful := by
      intro hmem
      rcases htrace.2 id (by rw [hr]; exact hmem) with h | ⟨e, hel, hQ⟩
      · simp at h
      · obtain ⟨heq, hflagf, _⟩ := hQ
        have hmem2 : (id, e.2) ∈ l := by
          have he : (id, e.2) = e := by rw [heq]
          rw [he]
          exact (mem_sorted_iff l e).mp hel
        have := hflag e.2 hmem2
        rw [hflagf] at this
        exact absurd this (by simp)
    refine ⟨?_, ?_, ?_⟩
    · intro eff heff hacc
      rw [hef] at heff
      rcases htrace.1 eff (by rw [hr]; exact heff) with h | ⟨e, hel, hacc2,
        hflagf⟩
      · simp at h
      · have he1 : e.1 = id := hacc2.symm.trans hacc
        have hmem2 : (id, e.2) ∈ l := by
          have he : (id, e.2) = e := by rw [← he1]
          rw [he]
          exact (mem_sorted_iff l e).mp hel
        have := hflag e.2 hmem2
        rw [hflagf] at this
        exact absurd this (by simp)
    · rw [hsu]
      exact hnotsucc
    · rcases hst with h | h
      · rw [h]
      · rw [h]
        exact update_mapping_timestamps_filter_ne store [] st.successful now
          id (by simp) hnotsucc
  · intro ab now2 id2 m hm
    unfold update_mapping_timestamps
    simp [hm]

/-- Witness for C7 on a concrete account flagged for both destinations. -/
theorem do_not_sync_isolation_witness :
    ((∀ eff ∈ (sync_to_ab envOkAB [("accF", mapFlagged)] storeW
        "T").effects, Effect.account eff ≠ "accF") ∧
      "accF" ∉
        (sync_to_ab envOkAB [("accF", mapFlagged)] storeW "T").successful ∧
      (sync_to_ab envOkAB [("accF", mapFlagged)] storeW "T").store.filter
          (fun e => e.1 == "accF") =
        storeW.filter (fun e => e.1 == "accF")) ∧
    ((∀ eff ∈ (sync_to_ynab envOkY [("accF", mapFlagged)] storeW
        "T").effects, Effect.account eff ≠ "accF") ∧
      "accF" ∉
        (sync_to_ynab envOkY [("accF", mapFlagged)] storeW "T").successful ∧
      (sync_to_ynab envOkY [("accF", mapFlagged)] storeW "T").store.filter
          (fun e => e.1 == "accF") =
        storeW.filter (fun e => e.1 == "accF")) ∧
    update_mapping_timestamps [("accF", mapFlagged)] ["accF"] [] "T" =
      [("accF", mapFlagged)] :=
  ⟨do_not_sync_isolation.1 envOkAB [("accF", mapFlagged)] storeW "T" "accF"
      (by
        intro m hm
        simp only [List.mem_singleton, Prod.mk.injEq] at hm
        rw [hm.2]
        rfl),
   do_not_sync_isolation.2.1 envOkY [("accF", mapFlagged)] storeW "T" "accF"
      (by
        intro m hm
        simp only [List.mem_singleton, Prod.mk.injEq] at hm
        rw [hm.2]
        rfl),
   do_not_sync_isolation.2.2 ["accF"] "T" "accF" mapFlagged rfl⟩

/-- C8: an account missing either required destination identifier (budget
id or account id, where a missing or empty string is falsy) is skipped for
that destination: the loop step leaves the pass state untouched and raises
nothing, and the whole pass behaves exactly as if the account were absent
from the mapping list, so the remaining accounts are still processed. -/
theorem configuration_gap_recovery :
    (∀ (env : ABEnv) (st : PassState) (id : String) (m : Mapping),
      (truthy m.actual_budget_id && truthy m.actual_account_id) = false →
      step_ab env st (id, m) = (none, st)) ∧
    (∀ (env : YnabEnv) (st : PassState) (id : String) (m : Mapping),
      (truthy m.ynab_budget_id && truthy m.ynab_account_id) = false →
      step_ynab env st (id, m) = (none, st)) ∧
    (∀ (env : ABEnv) (l : List (String × Mapping)) (store : Store)
        (now id : String),
      (∀ m : Mapping, (id, m) ∈ l →
        (truthy m.actual_budget_id && truthy m.actual_account_id) = false) →
      sync_to_ab env l store now =
        sync_to_ab env (l.filter fun e => !(e.1 == id)) store now) ∧
    (∀ (env : YnabEnv) (l : List (String × Mapping)) (store : Store)
        (now id : String),
      (∀ m : Mapping, (id, m) ∈ l →
        (truthy m.ynab_budget_id && truthy m.ynab_account_id) = false) →
      sync_to_ynab env l store now =
        sync_to_ynab env (l.filter fun e => !(e.1 == id)) store now) := by
  refine ⟨step_ab_missing_ids, step_ynab_missing_ids, ?_, ?_⟩
  · intro env l store now id hids
    have hid : ∀ e ∈ sorted_by_priority l, (!(e.1 == id)) = false →
        ∀ st2, step_ab env st2 e = (none, st2) := by
      intro e hel hpe st2
      have he1 : e.1 = id := by simpa using hpe
      have hm : (id, e.2) ∈ l := by
        have he : (id, e.2) = e := by rw [← he1]
        rw [he]
        exact (mem_sorted_iff l e).mp hel
      exact step_ab_missing_ids env st2 e.1 e.2 (hids e.2 hm)
    have hrun : run_accounts (step_ab env)
        (sorted_by_priority (l.filter fun e => !(e.1 == id))) ⟨0, [], []⟩ =
        run_accounts (step_ab env) (sorted_by_priority l) ⟨0, [], []⟩ := by
      rw [sorted_filter_comm]
      exact run_accounts_skip (step_ab env) _ (sorted_by_priority l) hid
        ⟨0, [], []⟩
    simp only [sync_to_ab, hrun]
  · intro env l store now id hids
    have hid : ∀ e ∈ sorted_by_priority l, (!(e.1 == id)) = false →
        ∀ st2, step_ynab env st2 e = (none, st2) := by
      intro e hel hpe st2
      have he1 : e.1 = id := by simpa using hpe
      have hm : (id, e.2) ∈ l := by
        have he : (id, e.2) = e := by rw [← he1]
        rw [he]
        exact (mem_sorted_iff l e).mp hel
      exact step_ynab_missing_ids env st2 e.1 e.2 (hids e.2 hm)
    have hrun : run_accounts (step_ynab env)
        (sorted_by_priority (l.filter fun e => !(e.1 == id))) ⟨0, [], []⟩ =
        run_accounts (step_ynab env) (sorted_by_priority l) ⟨0, [], []⟩ := by
      rw [sorted_filter_comm]
      exact run_accounts_skip (step_ynab env) _ (sorted_by_priority l) hid
        ⟨0, [], []⟩
    simp only [sync_to_ynab, hrun]

/-- Witness for C8 on a concrete account with no destination identifiers,
processed alongside a fully configured account. -/
theorem configuration_gap_recovery_witness :
    step_ab envOkAB ⟨0, [], []⟩ ("accN", mapNoIds) = (none, ⟨0, [], []⟩) ∧
    step_ynab envOkY ⟨0, [], []⟩ ("accN", mapNoIds) = (none, ⟨0, [], []⟩) ∧
    sync_to_ab envOkAB [("accN", mapNoIds), ("acc1", mapOB)] storeW "T" =
      sync_to_ab envOkAB
        ([("accN", mapNoIds), ("acc1", mapOB)].filter fun e =>
          !(e.1 == "accN")) storeW "T" ∧
    sync_to_ynab envOkY [("accN", mapNoIds), ("acc1", mapOB)] storeW "T" =
      sync_to_ynab envOkY
        ([("accN", mapNoIds), ("acc1", mapOB)].filter fun e =>
          !(e.1 == "accN")) storeW "T" := by
  refine ⟨configuration_gap_recovery.1 envOkAB ⟨0, [], []⟩ "accN" mapNoIds
      rfl,
    configuration_gap_recovery.2.1 envOkY ⟨0, [], []⟩ "accN" mapNoIds rfl,
    configuration_gap_recovery.2.2.1 envOkAB
      [("accN", mapNoIds), ("acc1", mapOB)] storeW "T" "accN" ?_,
    configuration_gap_recovery.2.2.2 envOkY
      [("accN", mapNoIds), ("acc1", mapOB)] storeW "T" "accN" ?_⟩
  · intro m hm
    simp only [List.mem_cons, List.mem_singleton, Prod.mk.injEq,
      List.not_mem_nil, or_false] at hm
    rcases hm with ⟨_, h2⟩ | ⟨h1, _⟩
    · rw [h2]
      rfl
    · exact absurd h1 (by decide)
  · intro m hm
    simp only [List.mem_cons, List.mem_singleton, Prod.mk.injEq,
      List.not_mem_nil, or_false] at hm
    rcases hm with ⟨_, h2⟩ | ⟨h1, _⟩
    · rw [h2]
      rfl
    · exact absurd h1 (by decide)

/-- C9: a mapped account whose account-type string is present but neither
On Budget nor Tracking, and which is not skipped for a do-not-sync flag or
missing identifiers, makes the sync_to_ab loop reach the unconditional bare
raise: the step raises the bare-raise error, and a pass containing such an
account aborts with it, leaving the persisted store untouched; the same
account in the sync_to_ynab loop only logs the error and continues, leaving
the pass state unchanged. -/
theorem unknown_account_type_bare_raise :
    (∀ (env : ABEnv) (st : PassState) (id : String) (m : Mapping),
      m.actual_do_not_map = false →
      (truthy m.actual_budget_id && truthy m.actual_account_id) = true →
      account_type_of m ≠ "On Budget" → account_type_of m ≠ "Tracking" →
      step_ab env st (id, m) = (some .bareRaise, st)) ∧
    (∀ (env : YnabEnv) (st : PassState) (id : String) (m : Mapping),
      m.ynab_do_not_map = false →
      (truthy m.ynab_budget_id && truthy m.ynab_account_id) = true →
      account_type_of m ≠ "On Budget" → account_type_of m ≠ "Tracking" →
      step_ynab env st (id, m) = (none, st)) ∧
    (∀ (env : ABEnv) (store : Store) (now id : String) (m : Mapping),
      m.actual_do_not_map = false →
      (truthy m.actual_budget_id && truthy m.actual_account_id) = true →
      account_type_of m ≠ "On Budget" → account_type_of m ≠ "Tracking" →
      (sync_to_ab env [(id, m)] store now).err = some .bareRaise ∧
      (sync_to_ab env [(id, m)] store now).store = store) := by
  refine ⟨?_, ?_, ?_⟩
  · intro env st id m h1 h2 h4 h3
    simp [step_ab, h1, h2, h3, h4]
  · intro env st id m h1 h2 h4 h3
    simp [step_ynab, h1, h2, h3, h4]
  · intro env store now id m h1 h2 h4 h3
    have hstep : step_ab env ⟨0, [], []⟩ (id, m) =
        (some .bareRaise, ⟨0, [], []⟩) := by
      simp [step_ab, h1, h2, h3, h4]
    have hrun : run_accounts (step_ab env) (sorted_by_priority [(id, m)])
        ⟨0, [], []⟩ = (some .bareRaise, ⟨0, [], []⟩) := by
      show run_accounts (step_ab env) [(id, m)] ⟨0, [], []⟩ = _
      rw [run_accounts, hstep]
    have hres : sync_to_ab env [(id, m)] store now =
        ⟨some .bareRaise, 0, [], [], store⟩ := by
      unfold sync_to_ab
      simp only [hrun]
    rw [hres]
    exact ⟨rfl, rfl⟩

/-- Witness for C9 on a concrete account whose account-type string is
Mystery. -/
theorem unknown_account_type_bare_raise_witness :
    step_ab envOkAB ⟨0, [], []⟩ ("accU", mapUnknown) =
      (some .bareRaise, ⟨0, [], []⟩) ∧
    step_ynab envOkY ⟨0, [], []⟩ ("accU", mapUnknown) =
      (none, ⟨0, [], []⟩) ∧
    (sync_to_ab envOkAB [("accU", mapUnknown)] storeW "T").err =
      some .bareRaise ∧
    (sync_to_ab envOkAB [("accU", mapUnknown)] storeW "T").store = storeW :=
  ⟨unknown_account_type_bare_raise.1 envOkAB ⟨0, [], []⟩ "accU" mapUnknown
      rfl rfl (by decide) (by decide),
   unknown_account_type_bare_raise.2.1 envOkY ⟨0, [], []⟩ "accU" mapUnknown
      rfl rfl (by decide) (by decide),
   (unknown_account_type_bare_raise.2.2 envOkAB storeW "T" "accU" mapUnknown
      rfl rfl (by decide) (by decide)).1,
   (unknown_account_type_bare_raise.2.2 envOkAB storeW "T" "accU" mapUnknown
      rfl rfl (by decide) (by decide)).2⟩

/-- C10 (implicit): for an account mapped as On Budget, a pass whose fetch
for that account returns zero transactions never adds the account to the
successful-sync set, so its persisted store entries (including the stored
watermark) are unchanged even when the whole pass completes without error;
conversely the account can enter the successful-sync set only when the
fetch returned a non-empty transaction list and the load succeeded. Both
destination passes behave the same way. -/
theorem empty_fetch_keeps_watermark :
    (∀ (env : ABEnv) (l : List (String × Mapping)) (store : Store)
        (now id : String),
      (∀ m : Mapping, (id, m) ∈ l → account_type_of m = "On Budget") →
      (env.fetchTxns id = .ok [] →
        id ∉ (sync_to_ab env l store now).successful ∧
        (sync_to_ab env l store now).store.filter (fun e => e.1 == id) =
          store.filter (fun e => e.1 == id)) ∧
      (id ∈ (sync_to_ab env l store now).successful →
        (∃ ts, env.fetchTxns id = .ok ts ∧ ts ≠ []) ∧
        ∃ n, env.loadOutcome id = .ok n)) ∧
    (∀ (env : YnabEnv) (l : List (String × Mapping)) (store : Store)
        (now id : String),
      (∀ m : Mapping, (id, m) ∈ l → account_type_of m = "On Budget") →
      (env.fetchTxns id = .ok [] →
        id ∉ (sync_to_ynab env l store now).successful ∧
        (sync_to_ynab env l store now).store.filter (fun e => e.1 == id) =
          store.filter (fun e => e.1 == id)) ∧
      (id ∈ (sync_to_ynab env l store now).successful →
        (∃ ts, env.fetchTxns id = .ok ts ∧ ts ≠ []) ∧
        ∃ n, env.loadOutcome id = .ok n)) := by
  constructor
  · intro env l store now id hOB
    obtain ⟨o, st, hr, hef, hsu, hst⟩ := sync_to_ab_fields env l store now
    have htrace := run_accounts_trace (step_ab env) _ _
      (step_ab_effects_prop env) (step_ab_successful_prop env)
      (sorted_by_priority l) ⟨0, [], []⟩
    have key : id ∈ st.successful →
        (∃ ts, env.fetchTxns id = .ok ts ∧ ts ≠ []) ∧
        ∃ n, env.loadOutcome id = .ok n := by
      intro hmem
      rcases htrace.2 id (by rw [hr]; exact hmem) with h | ⟨e, hel, hQ⟩
      · simp at h
      · obtain ⟨heq, _, _, hcond⟩ := hQ
        have hmem2 : (id, e.2) ∈ l := by
          have he : (id, e.2) = e := by rw [heq]
          rw [he]
          exact (mem_sorted_iff l e).mp hel
        have htype := hOB e.2 hmem2
        rcases hcond with ⟨htr, _⟩ | ⟨_, ⟨ts, hts, hne⟩, ⟨n, hn⟩⟩
        · rw [htype] at htr
          exact absurd htr (by decide)
        · refine ⟨⟨ts, ?_, ?_⟩, ⟨n, ?_⟩⟩
          · rw [heq]
            exact hts
          · simpa using hne
          · rw [heq]
            exact hn
    refine ⟨?_, ?_⟩
    · intro hempty
      have hnot : id ∉ st.successful := by
        intro hmem
        obtain ⟨⟨ts, hts, hne⟩, _⟩ := key hmem
        rw [hempty] at hts
        simp only [Except.ok.injEq] at hts
        exact hne hts.symm
      refine ⟨?_, ?_⟩
      · rw [hsu]
        exact hnot
      · rcases hst with h | h
        · rw [h]
        · rw [h]
          exact update_mapping_timestamps_filter_ne store st.successful []
            now id hnot (by simp)
    · intro hmem
      rw [hsu] at hmem
      exact key hmem
  · intro env l store now id hOB
    obtain ⟨o, st, hr, hef, hsu, hst⟩ := sync_to_ynab_fields env l store now
    have htrace := run_accounts_trace (step_ynab env) _ _
      (step_ynab_effects_prop env) (step_ynab_successful_prop env)
      (sorted_by_priority l) ⟨0, [], []⟩
    have key : id ∈ st.successful →
        (∃ ts, env.fetchTxns id = .ok ts ∧ ts ≠ []) ∧
        ∃ n, env.loadOutcome id = .ok n := by
      intro hmem
      rcases htrace.2 id (by rw [hr]; exact hmem) with h | ⟨e, hel, hQ⟩
      · simp at h
      · obtain ⟨heq, _, _, hcond⟩ := hQ
        have hmem2 : (id, e.2) ∈ l := by
          have he : (id, e.2) = e := by rw [heq]
          rw [he]
          exact (mem_sorted_iff l e).mp hel
        have htype := hOB e.2 hmem2
        rcases hcond with htr | ⟨_, ⟨ts, hts, hne⟩, ⟨n, hn⟩⟩
        · rw [htype] at htr
          exact absurd htr (by decide)
        · refine ⟨⟨ts, ?_, ?_⟩, ⟨n, ?_⟩⟩
          · rw [heq]
            exact hts
          · simpa using hne
          · rw [heq]
            exact hn
    refine ⟨?_, ?_⟩
    · intro hempty
      have hnot : id ∉ st.successful := by
        intro hmem
        obtain ⟨⟨ts, hts, hne⟩, _⟩ := key hmem
        rw [hempty] at hts
        simp only [Except.ok.injEq] at hts
        exact hne hts.symm
      refine ⟨?_, ?_⟩
      · rw [hsu]
        exact hnot
      · rcases hst with h | h
        · rw [h]
        · rw [h]
          exact update_mapping_timestamps_filter_ne store [] st.successful
            now id (by simp) hnot
    · intro hmem
      rw [hsu] at hmem
      exact key hmem

/-- Witness for C10 on a concrete On Budget account whose fetch returns an
empty transaction list. -/
theorem empty_fetch_keeps_watermark_witness :
    "acc1" ∉
      (sync_to_ab envEmptyAB [("acc1", mapOB)] storeW "T").successful ∧
    (sync_to_ab envEmptyAB [("acc1", mapOB)] storeW "T").store.filter
        (fun e => e.1 == "acc1") =
      storeW.filter (fun e => e.1 == "acc1") ∧
    "acc1" ∉
      (sync_to_ynab envEmptyY [("acc1", mapOB)] storeW "T").successful :=
  have hOB : ∀ m : Mapping, ("acc1", m) ∈ [("acc1", mapOB)] →
      account_type_of m = "On Budget" := by
    intro m hm
    simp only [List.mem_singleton, Prod.mk.injEq] at hm
    rw [hm.2]
    rfl
  ⟨((empty_fetch_keeps_watermark.1 envEmptyAB [("acc1", mapOB)] storeW "T"
      "acc1" hOB).1 rfl).1,
   ((empty_fetch_keeps_watermark.1 envEmptyAB [("acc1", mapOB)] storeW "T"
      "acc1" hOB).1 rfl).2,
   ((empty_fetch_keeps_watermark.2 envEmptyY [("acc1", mapOB)] storeW "T"
      "acc1" hOB).1 rfl).1⟩
